import Mathlib

/-!
Verification development for the lead-discovery pipeline
(`lead_hunter.py` and its HTTP front end `app.py`).

The Python source is shallowly embedded: pure string processing
(regular-expression extraction, URL parsing, per-harvester
deduplication) is translated into executable Lean functions; the
stateful pipeline (`run_pipeline`) becomes explicit state passing over
a `RunState`; code that can raise returns `Option`.  External
collaborators (the Playwright renderer, `requests`, `BeautifulSoup`,
`tldextract`, `textstat`, the network and the clock) are not code of
the repository: their results enter the model as explicit parameters
or oracle fields, and everything computed from those results is
translated from the source.  Strings are modelled at the ASCII level
(the character classes `\d`, `\s`, `\w` of Python's `re` also match
some non-ASCII code points; no claim depends on those).
-/

/- ------------------------ Python numeric helpers ------------------------ -/

/-- Python `int()` applied to an exact rational: truncation toward zero.
`Int.tdiv` truncates toward zero and `q.den` is positive, so this is
exactly `int(q)` for an exact rational `q`. -/
def pyInt (q : ℚ) : ℤ := q.num.tdiv q.den

/-- Python `round()` on an exact rational: nearest integer, ties to even
(banker's rounding). -/
def pyRound (q : ℚ) : ℤ :=
  let f : ℤ := q.num / (q.den : ℤ)
  let r : ℚ := q - (f : ℚ)
  if r < 1 / 2 then f
  else if 1 / 2 < r then f + 1
  else if f % 2 = 0 then f else f + 1

/- ------------------------ string helpers ------------------------ -/

/-- Python's substring test `needle in hay` on character lists. -/
def subIn (needle : List Char) : List Char → Bool
  | [] => needle.isEmpty
  | c :: t => ((c :: t).take needle.length == needle) || subIn needle t

/-- Python slicing `s[:n]` on a string (by characters, as on `str`). -/
def pyTake (n : Nat) (s : String) : String := String.mk (s.toList.take n)

/-- Python `url.split("?")[0]`: the part of the URL before the first `?`.
This is the dedup key the scrapers use (`landing_norm`). -/
def stripQuery (url : String) : String :=
  String.mk (url.toList.takeWhile (fun c => c != '?'))

/-- The characters Python's `str.strip()` removes (ASCII part). -/
def pyIsSpace (c : Char) : Bool :=
  c == ' ' || c == '\t' || c == '\n' || c == '\r' || c == '\u000b' || c == '\u000c'

/-- Python `s.strip()`: drop whitespace from both ends. -/
def pyStrip (s : String) : String :=
  String.mk (((s.toList.dropWhile pyIsSpace).reverse.dropWhile pyIsSpace).reverse)

/-- Python `s.startswith(pre)`. -/
def pyStartsWith (s pre : String) : Bool := pre.toList.isPrefixOf s.toList

/-- Python `s.lower()` (ASCII part). -/
def pyLower (s : String) : List Char := s.toList.map Char.toLower

/- ------------------------ CONFIG (lead_hunter.py lines 27-53) ------------------------ -/

def PLATFORMS : List String := ["meta", "reddit", "linkedin"]

def MAX_PER_PLATFORM : Nat := 100

def MAX_PER_DOMAIN : Nat := 100

/-- `SOCIAL_BLOCK_DOMAINS` (a Python `set`; only membership is ever used,
so the iteration order of the model is irrelevant). -/
def SOCIAL_BLOCK_DOMAINS : List String :=
  ["facebook.com", "m.facebook.com", "whatsapp.com", "wa.me", "t.me", "t.co",
   "bit.ly", "instagram.com", "docs.google.com", "forms.gle", "fb.com", "metastatus.com"]

/-- `WEIGHTS` dict, entry `has_email`. -/
def WEIGHTS_has_email : ℤ := 30

/-- `WEIGHTS` dict, entry `has_phone`. -/
def WEIGHTS_has_phone : ℤ := 20

/-- `WEIGHTS` dict, entry `has_contact_page`. -/
def WEIGHTS_has_contact_page : ℤ := 10

/-- `WEIGHTS` dict, entry `has_contact_form`. -/
def WEIGHTS_has_contact_form : ℤ := 8

/-- `WEIGHTS` dict, entry `has_schema`. -/
def WEIGHTS_has_schema : ℤ := 8

/-- `WEIGHTS` dict, entry `good_copy`. -/
def WEIGHTS_good_copy : ℤ := 12

/-- `WEIGHTS` dict, entry `has_cta`. -/
def WEIGHTS_has_cta : ℤ := 12

/- ------------------------ urlparse netloc (CPython urlsplit, ASCII level) ------------------------ -/

/-- Characters CPython's `urlsplit` allows in a URL scheme. -/
def schemeChar (c : Char) : Bool := c.isAlphanum || c == '+' || c == '-' || c == '.'

/-- The remainder of the URL once a well-formed `scheme:` head is removed
(CPython `urlsplit`: there must be a `:` at position `i > 0`, the first
character must be a letter and everything before the `:` a scheme
character; otherwise the URL is left as is). -/
def urlAfterScheme (cs : List Char) : List Char :=
  match cs.findIdx? (fun c => c == ':') with
  | some i =>
    if 0 < i then
      if (cs.headD ' ').isAlpha && (cs.take i).all schemeChar then cs.drop (i + 1) else cs
    else cs
  | none => cs

/-- CPython `urlsplit` preprocessing: control characters and spaces are
stripped from both ends and the unsafe bytes tab, CR and LF are removed
everywhere. -/
def urlPreprocess (cs : List Char) : List Char :=
  let keep := fun c => !decide (c.toNat ≤ 32)
  ((cs.dropWhile (fun c => !keep c)).reverse.dropWhile (fun c => !keep c)).reverse.filter
    (fun c => !(c == '\t' || c == '\r' || c == '\n'))

/-- The `netloc` component of `urlparse(url)`: present only after `//`,
running up to the next `/`, `?` or `#`.  `none` models the `ValueError`
CPython raises for a malformed IPv6 host (a `[` without `]` or a `]`
without `[` in the netloc — the bracket-mismatch subset of CPython's
malformed-URL failures); that is the parse failure
`is_blocked_social`'s `except Exception` handler catches. -/
def urlNetloc? (url : String) : Option String :=
  let cs := urlAfterScheme (urlPreprocess url.toList)
  if cs.take 2 == ['/', '/'] then
    let net := (cs.drop 2).takeWhile (fun c => !(c == '/' || c == '?' || c == '#'))
    if (net.contains '[' && !net.contains ']') || (net.contains ']' && !net.contains '[') then
      none
    else some (String.mk net)
  else some ""

/-- `is_blocked_social` (lines 57-65): lowercase the parsed netloc and test
whether any blocked domain occurs in it as a substring.  On a parse
exception the handler returns `False`. -/
def is_blocked_social (url : String) : Bool :=
  match urlNetloc? url with
  | none => false
  | some netRaw =>
    let net := pyLower netRaw
    SOCIAL_BLOCK_DOMAINS.any (fun s => subIn s.toList net)

/- ------------------------ EMAIL_RE findall (lines 68-72) ------------------------ -/

/-- Character class `[a-zA-Z0-9_.+-]` (the local part of `EMAIL_RE`). -/
def emailLocalChar (c : Char) : Bool :=
  c.isAlphanum || c == '_' || c == '.' || c == '+' || c == '-'

/-- Character class `[a-zA-Z0-9-]` (the domain label of `EMAIL_RE`). -/
def emailDomChar (c : Char) : Bool := c.isAlphanum || c == '-'

/-- Character class `[a-zA-Z0-9-.]` (the tail of `EMAIL_RE`). -/
def emailTailChar (c : Char) : Bool := c.isAlphanum || c == '-' || c == '.'

/-- Length of the match of `EMAIL_RE` anchored at the head of `cs`, if any.
Each quantified class of the pattern is followed by a character outside
that class, so the greedy maximal run is the only candidate and no
backtracking can occur. -/
def emailMatchLen (cs : List Char) : Option Nat :=
  let l := (cs.takeWhile emailLocalChar).length
  if l = 0 then none
  else
    match cs.drop l with
    | '@' :: r1 =>
      let d := (r1.takeWhile emailDomChar).length
      if d = 0 then none
      else
        match r1.drop d with
        | '.' :: r2 =>
          let t := (r2.takeWhile emailTailChar).length
          if t = 0 then none else some (l + 1 + d + 1 + t)
        | _ => none
    | _ => none

/-- The scan of `EMAIL_RE.findall`, written with explicit fuel (one unit
per character, so `cs.length` always suffices) to keep the recursion
structural: emit each non-overlapping match left to right, resume after
a match, advance one character after a failure. -/
def emailScanFuel : Nat → List Char → List String
  | _, [] => []
  | 0, _ :: _ => []
  | fuel + 1, c :: cs =>
    match emailMatchLen (c :: cs) with
    | some n => String.mk ((c :: cs).take n) :: emailScanFuel fuel (cs.drop (n - 1))
    | none => emailScanFuel fuel cs

/-- `EMAIL_RE.findall` over a character list. -/
def emailScan (cs : List Char) : List String := emailScanFuel cs.length cs

/-- `extract_emails` (lines 71-72): `list(set(EMAIL_RE.findall(text or "")))`.
The Python `set` fixes no order, so the model keeps the distinct values
via `dedup`; claims about this function concern membership and
duplicate-freedom only. -/
def extract_emails (text : String) : List String := (emailScan text.toList).dedup

/- ------------------------ PHONE_RE findall (lines 69-76) ------------------------ -/

/-- Take exactly `n` characters of class `p`, returning the remainder. -/
def takeExact (p : Char → Bool) : Nat → List Char → Option (List Char)
  | 0, cs => some cs
  | _ + 1, [] => none
  | n + 1, c :: cs => if p c then takeExact p n cs else none

/-- Greedy bounded repetition with backtracking: try to consume `n`
characters of class `p`, then `n - 1`, ..., down to `lo`, handing the
remainder to the continuation `k`; the first full success wins.  This is
exactly how Python's engine explores `p{lo,n}` inside a concatenation. -/
def tryCounts (p : Char → Bool) (lo : Nat) (k : List Char → Option (List Char)) :
    Nat → List Char → Option (List Char)
  | 0, cs => (takeExact p 0 cs).bind k
  | n + 1, cs =>
    ((takeExact p (n + 1) cs).bind k).orElse (fun _ =>
      if lo < n + 1 then tryCounts p lo k n cs else none)

/-- Character class `[\s\-\.\(]` of `PHONE_RE` (Python `\s`, ASCII part). -/
def phoneSepChar (c : Char) : Bool :=
  c == ' ' || c == '\t' || c == '\n' || c == '\r' || c == '\u000b' || c == '\u000c' ||
  c == '-' || c == '.' || c == '('

/-- Character class `[\)\s\-\.\d]` of `PHONE_RE` (ASCII part). -/
def phoneTailChar (c : Char) : Bool :=
  c == ')' || c == ' ' || c == '\t' || c == '\n' || c == '\r' || c == '\u000b' ||
  c == '\u000c' || c == '-' || c == '.' || c.isDigit

/-- Length of the match of
`PHONE_RE = (?:\+?\d{1,3})?[\s\-\.\(]*\d{2,4}[\)\s\-\.\d]{5,20}`
anchored at the head of `cs`, if any, with Python's greedy backtracking
order: the optional group first (inside it `\+` present before absent,
3 digits down to 1), then the separator star from longest to empty, then
`\d{2,4}` from 4 down to 2, then the tail run from 20 down to 5. -/
def phoneAfterGroup (cs : List Char) : Option (List Char) :=
  tryCounts phoneSepChar 0
    (fun r1 =>
      tryCounts Char.isDigit 2
        (fun r2 => tryCounts phoneTailChar 5 some 20 r2) 4 r1)
    cs.length cs

/-- Match of the full `PHONE_RE` at the head of `cs`: the match length. -/
def phoneMatchLen (cs : List Char) : Option Nat :=
  let attempt :=
    (tryCounts (fun c => c == '+') 0
        (fun r0 => tryCounts Char.isDigit 1 (fun r1 => phoneAfterGroup r1) 3 r0)
        1 cs).orElse
      (fun _ => phoneAfterGroup cs)
  attempt.map (fun rest => cs.length - rest.length)

/-- The scan of `PHONE_RE.findall`, with the same fuel discipline as the
email scan: non-overlapping matches, left to right. -/
def phoneScanFuel : Nat → List Char → List String
  | _, [] => []
  | 0, _ :: _ => []
  | fuel + 1, c :: cs =>
    match phoneMatchLen (c :: cs) with
    | some n => String.mk ((c :: cs).take n) :: phoneScanFuel fuel (cs.drop (n - 1))
    | none => phoneScanFuel fuel cs

/-- `PHONE_RE.findall` over a character list. -/
def phoneScan (cs : List Char) : List String := phoneScanFuel cs.length cs

/-- Number of digit characters of `s`: `len(re.sub(r"\D", "", s))`. -/
def digitCount (s : String) : Nat := (s.toList.filter Char.isDigit).length

/-- `extract_phones` (lines 74-76):
`list(set([p.strip() for p in PHONE_RE.findall(text or "") if len(re.sub(r"\D","",p))>=6]))`.
`String.trim` models Python `str.strip()` (whitespace at both ends); as
with the emails, the `set` fixes no order and the model keeps the
distinct values via `dedup`. -/
def extract_phones (text : String) : List String :=
  (((phoneScan text.toList).filter (fun p => 6 ≤ digitCount p)).map pyStrip).dedup

/-- Modelled from the spec (section 4.2, `extract_phones`), for comparison
with the code: a canonical number for the configured locale (the code
targets country `IT`) is the international prefix `+39` followed by a
10-digit national number whose first digit is a mobile prefix (`3`) or
the trunk prefix (`0`). -/
def specPhoneValid (s : String) : Bool :=
  pyStartsWith s "+39" &&
    (let rest := s.toList.drop 3
     rest.length == 10 && rest.all Char.isDigit &&
       (rest.take 1 == ['3'] || rest.take 1 == ['0']))

/- ------------------------ platform scrapers (lines 145-267) ------------------------ -/

/-- An anchor element of the rendered search page: `a.get_text()` and
`a["href"]` of one `soup.find_all("a", href=True)` hit.  The rendered
document itself comes from the external browser, so a scraper is
modelled as a function of this anchor list; when the search fetch fails
the page yields whatever content is current (possibly none), which is
just another value of this input. -/
structure Anchor where
  text : String
  href : String
deriving DecidableEq

/-- A raw candidate as the scrapers emit it:
`{'platform':…,'title':…,'text':…,'landing':…}`. -/
structure Candidate where
  platform : String
  title : String
  text : String
  landing : String
deriving DecidableEq

/-- Hex digit value, as `urllib.parse.unquote` reads `%XX` escapes. -/
def hexVal (c : Char) : Option Nat :=
  if '0' ≤ c ∧ c ≤ '9' then some (c.toNat - '0'.toNat)
  else if 'a' ≤ c ∧ c ≤ 'f' then some (c.toNat - 'a'.toNat + 10)
  else if 'A' ≤ c ∧ c ≤ 'F' then some (c.toNat - 'A'.toNat + 10)
  else none

/-- `requests.utils.unquote` at the ASCII level: each valid `%XX` escape
becomes the character with code `XX`, anything else is kept as is. -/
def pctDecode : List Char → List Char
  | [] => []
  | '%' :: a :: b :: rest =>
    match hexVal a, hexVal b with
    | some x, some y => Char.ofNat (16 * x + y) :: pctDecode rest
    | _, _ => '%' :: pctDecode (a :: b :: rest)
  | c :: rest => c :: pctDecode rest

/-- `re.search(r"u=(https%3A%2F%2F[^&]+)", href)` anchored at the head:
the literal `u=https%3A%2F%2F` followed by a nonempty maximal run of
non-`&` characters; the captured group starts after `u=`. -/
def metaUAt (cs : List Char) : Option (List Char) :=
  let lit := "u=https%3A%2F%2F".toList
  if cs.take lit.length == lit then
    let run := (cs.drop lit.length).takeWhile (fun c => c != '&')
    if run.isEmpty then none else some ("https%3A%2F%2F".toList ++ run)
  else none

/-- The `re.search` scan for the `u=` parameter: first match anywhere. -/
def metaUSearch : List Char → Option (List Char)
  | [] => none
  | c :: cs =>
    match metaUAt (c :: cs) with
    | some g => some g
    | none => metaUSearch cs

/-- Redirect unwrapping in `scrape_meta_ads` (lines 173-181): for an
`l.facebook.com/l.php` wrapper link, extract and percent-decode the `u=`
target when present, otherwise keep the href. -/
def metaUnwrap (href : String) : String :=
  if subIn "l.facebook.com/l.php".toList href.toList then
    match metaUSearch href.toList with
    | some g => String.mk (pctDecode g)
    | none => href
  else href

/-- First phase of `scrape_meta_ads` (lines 168-183): keep anchors whose
href is absolute or a Facebook redirect wrapper, unwrap the landing, and
drop blocked-social landings, collecting `(text, landing)` pairs. -/
def metaCandidates (anchors : List Anchor) : List (String × String) :=
  anchors.filterMap (fun a =>
    if pyStartsWith a.href "https://" || pyStartsWith a.href "http://" ||
        subIn "l.facebook.com/l.php".toList a.href.toList then
      let landing := metaUnwrap a.href
      if is_blocked_social landing then none else some (a.text, landing)
    else none)

/-- Dedup loop of `scrape_meta_ads` (lines 184-193): skip a candidate whose
query-stripped landing was already seen, otherwise append it, and break
once `len(out) >= max_items` — the check runs only after an append. -/
def metaLoop (max_items : Nat) : List String → Nat → List (String × String) → List Candidate
  | _, _, [] => []
  | seen, cnt, (txt, landing) :: rest =>
    let norm := stripQuery landing
    if seen.contains norm then metaLoop max_items seen cnt rest
    else
      let c : Candidate :=
        { platform := "meta", title := pyTake 200 (pyStrip txt), text := pyStrip txt,
          landing := landing }
      if max_items ≤ cnt + 1 then [c]
      else c :: metaLoop max_items (norm :: seen) (cnt + 1) rest

/-- `scrape_meta_ads` (lines 149-193) as a function of the rendered
document's anchors.  Note there is no final truncation: the function
ends with `return out`. -/
def scrape_meta_ads (anchors : List Anchor) (max_items : Nat) : List Candidate :=
  metaLoop max_items [] 0 (metaCandidates anchors)

/-- `scrape_reddit`'s single loop (lines 211-236): anchors with an
external (`http…`, non-`reddit.com`) href that is not blocked are
deduplicated by query-stripped landing and appended, breaking after an
append reaches `max_items`.  The `is_promoted` ancestor check the code
computes is never used in the accept condition, so it does not appear
here. -/
def redditLoop (max_items : Nat) : List String → Nat → List Anchor → List Candidate
  | _, _, [] => []
  | seen, cnt, a :: rest =>
    let txt := pyTake 200 a.text
    if pyStartsWith a.href "http" && !subIn "reddit.com".toList a.href.toList then
      if is_blocked_social a.href then redditLoop max_items seen cnt rest
      else
        let norm := stripQuery a.href
        if seen.contains norm then redditLoop max_items seen cnt rest
        else
          let c : Candidate :=
            { platform := "reddit", title := txt, text := txt, landing := a.href }
          if max_items ≤ cnt + 1 then [c]
          else c :: redditLoop max_items (norm :: seen) (cnt + 1) rest
    else redditLoop max_items seen cnt rest

/-- `scrape_reddit` (lines 195-236); it ends with `return out[:max_items]`. -/
def scrape_reddit (anchors : List Anchor) (max_items : Nat) : List Candidate :=
  (redditLoop max_items [] 0 anchors).take max_items

/-- `scrape_linkedin`'s loop (lines 252-264), structurally identical to the
reddit loop: anchors with an external (`http…`, non-`linkedin.com`)
href that is not blocked are deduplicated by query-stripped landing and
appended, breaking after an append reaches `max_items`. -/
def linkedinLoop (max_items : Nat) : List String → Nat → List Anchor → List Candidate
  | _, _, [] => []
  | seen, cnt, a :: rest =>
    let txt := pyTake 200 a.text
    if pyStartsWith a.href "http" && !subIn "linkedin.com".toList a.href.toList then
      if is_blocked_social a.href then linkedinLoop max_items seen cnt rest
      else
        let norm := stripQuery a.href
        if seen.contains norm then linkedinLoop max_items seen cnt rest
        else
          let c : Candidate :=
            { platform := "linkedin", title := txt, text := txt, landing := a.href }
          if max_items ≤ cnt + 1 then [c]
          else c :: linkedinLoop max_items (norm :: seen) (cnt + 1) rest
    else linkedinLoop max_items seen cnt rest

/-- `scrape_linkedin` (lines 238-267); it ends with `return out[:max_items]`. -/
def scrape_linkedin (anchors : List Anchor) (max_items : Nat) : List Candidate :=
  (linkedinLoop max_items [] 0 anchors).take max_items

/- ------------------------ landing analyzer (lines 270-315) ------------------------ -/

/-- The scoring signal bundle of one landing analysis (the fields read at
lines 304-312).  `copy_quality` is one of `{0, 0.3, 0.6, 1.0}` in the
program but the type carries any exact rational. -/
structure Signals where
  emails : List String
  phones : List String
  contact_page : Option String
  has_contact_form : Bool
  has_schema : Bool
  has_cta : Bool
  copy_quality : ℚ
deriving DecidableEq

/-- Python truthiness of the `contact_page` field: `None` and the empty
string are falsy. -/
def pyTruthy (o : Option String) : Bool :=
  match o with
  | some u => u != ""
  | none => false

/-- The raw score accumulation of `analyze_landing` (lines 304-312): fixed
weights for each truthy signal plus `int(copy_quality * WEIGHTS["good_copy"])`. -/
def rawScore (s : Signals) : ℤ :=
  (if s.emails.isEmpty then 0 else WEIGHTS_has_email) +
    (if s.phones.isEmpty then 0 else WEIGHTS_has_phone) +
    (if pyTruthy s.contact_page then WEIGHTS_has_contact_page else 0) +
    (if s.has_contact_form then WEIGHTS_has_contact_form else 0) +
    (if s.has_schema then WEIGHTS_has_schema else 0) +
    pyInt (s.copy_quality * (WEIGHTS_good_copy : ℚ)) +
    (if s.has_cta then WEIGHTS_has_cta else 0)

/-- Modelled from the spec (section 4.3, `score`), for comparison with the
code: the same weighted sum but with `round(copy_quality * 12)` for the
copy-quality contribution, as the spec's words have it. -/
def specRawScore (s : Signals) : ℤ :=
  (if s.emails.isEmpty then 0 else WEIGHTS_has_email) +
    (if s.phones.isEmpty then 0 else WEIGHTS_has_phone) +
    (if pyTruthy s.contact_page then WEIGHTS_has_contact_page else 0) +
    (if s.has_contact_form then WEIGHTS_has_contact_form else 0) +
    (if s.has_schema then WEIGHTS_has_schema else 0) +
    pyRound (s.copy_quality * (WEIGHTS_good_copy : ℚ)) +
    (if s.has_cta then WEIGHTS_has_cta else 0)

/-- `normalize_score` (lines 140-143): clamp into `[0, 100]`.  Its argument
is an integer at the only call site, so `int(round(raw))` is `raw`. -/
def normalize_score (raw : ℤ) : ℤ := max 0 (min 100 raw)

/-- One landing analysis record, the `info` dict of `analyze_landing`. -/
structure Analysis where
  url : String
  emails : List String
  phones : List String
  contact_page : Option String
  has_contact_form : Bool
  has_schema : Bool
  has_cta : Bool
  copy_quality : ℚ
  title : String
  score : ℤ
deriving DecidableEq

/-- The default `info` record `analyze_landing` builds first (lines 272-274)
and returns unchanged when no HTML was obtained. -/
def defaultInfo (url : String) : Analysis :=
  { url := url, emails := [], phones := [], contact_page := none,
    has_contact_form := false, has_schema := false, has_cta := false,
    copy_quality := 0, title := "", score := 0 }

/-- Outcome of the fetch ladder of `analyze_landing` (lines 275-288):
a rendered load, or a Playwright timeout followed by the `requests`
fallback (its status and body, or `none` when it raised), or another
exception during the rendered load. -/
inductive FetchOutcome where
  | rendered (html : String)
  | timeoutFallback (response : Option (Nat × String))
  | otherError
deriving DecidableEq

/-- The `html` string each fetch outcome leaves behind: the rendered
content, the fallback body when its status is 200, and `""` otherwise. -/
def htmlOf (f : FetchOutcome) : String :=
  match f with
  | .rendered h => h
  | .timeoutFallback (some (status, text)) => if status = 200 then text else ""
  | .timeoutFallback none => ""
  | .otherError => ""

/-- What BeautifulSoup-based extraction yields for a given HTML document:
the parsed title, `soup.get_text(" ", strip=True)`, and the
DOM-structure signals (`find_contact_page`, `bool(soup.find("form"))`,
`has_schema_org`, `has_cta`) together with the `copy_quality_score` of
the paragraph/heading text.  The HTML parser and `textstat` are external
libraries, so these enter the model as data indexed by the HTML. -/
structure SoupView where
  title : String
  text : String
  contact_page : Option String
  has_form : Bool
  has_schema : Bool
  has_cta : Bool
  copy_quality : ℚ

/-- `analyze_landing` (lines 271-315): with no HTML the default record is
returned; otherwise the email/phone extractors run over
`html + " " + text`, the DOM signals are read, and the score is the
clamped weighted raw sum. -/
def analyze_landing (soupOf : String → SoupView) (f : FetchOutcome) (landing_url : String) :
    Analysis :=
  let html := htmlOf f
  if html = "" then defaultInfo landing_url
  else
    let s := soupOf html
    let emails := extract_emails (html ++ " " ++ s.text)
    let phones := extract_phones (html ++ " " ++ s.text)
    let sig : Signals :=
      { emails := emails, phones := phones, contact_page := s.contact_page,
        has_contact_form := s.has_form, has_schema := s.has_schema,
        has_cta := s.has_cta, copy_quality := s.copy_quality }
    { url := landing_url, emails := emails, phones := phones,
      contact_page := s.contact_page, has_contact_form := s.has_form,
      has_schema := s.has_schema, has_cta := s.has_cta,
      copy_quality := s.copy_quality, title := s.title,
      score := normalize_score (rawScore sig) }

/- ------------------------ pipeline (lines 319-394) ------------------------ -/

/-- One collected lead (the dict built at lines 369-376; the
`collected_at` wall-clock timestamp is an external effect and carries no
information the claims touch, so it is not modelled). -/
structure Lead where
  platform : String
  source_title : String
  landing : String
  domain : String
  analysis : Analysis
deriving DecidableEq

/-- `lead = {...}` construction: `source_title` is
`cand.get("title") or cand.get("text","")`, with the empty title falsy. -/
def mkLead (platform : String) (cand : Candidate) (dom : String) (a : Analysis) : Lead :=
  { platform := platform,
    source_title := if cand.title = "" then cand.text else cand.title,
    landing := cand.landing, domain := dom, analysis := a }

/-- The run's mutable state: the flat `results` list and the two
`defaultdict(int)` counters. -/
structure RunState where
  results : List Lead
  per_platform : String → Nat
  per_domain_count : String → Nat

/-- The state a run starts from (lines 320-322). -/
def initState : RunState :=
  { results := [], per_platform := fun _ => 0, per_domain_count := fun _ => 0 }

/-- The pipeline's external collaborators for one run: what each
platform's scraper returns for the query (the rendered search pages are
live), what `analyze_landing` produces for a landing URL (`none` models
the call raising, which line 363-367 catches), and `domain_of` (backed
by the external `tldextract` public-suffix data; it never raises). -/
structure PipelineEnv where
  harvest : String → String → List Candidate
  analysisResult : String → Option Analysis
  domainOf : String → String

/-- The body of the candidate loop (lines 352-380) for one candidate,
after the per-platform break check: skip on a falsy landing, a blocked
landing, an exhausted domain quota or an analysis exception; otherwise
append the lead and bump both counters. -/
def processOne (env : PipelineEnv) (platform : String) (st : RunState) (cand : Candidate) :
    RunState :=
  if cand.landing = "" then st
  else if is_blocked_social cand.landing then st
  else
    let dom := env.domainOf cand.landing
    if MAX_PER_DOMAIN ≤ st.per_domain_count dom then st
    else
      match env.analysisResult cand.landing with
      | none => st
      | some a =>
        { results := st.results ++ [mkLead platform cand dom a],
          per_platform := fun p =>
            if p = platform then st.per_platform p + 1 else st.per_platform p,
          per_domain_count := fun d =>
            if d = dom then st.per_domain_count d + 1 else st.per_domain_count d }

/-- The candidate loop (lines 349-380): before each candidate the loop
breaks once the platform counter has reached `MAX_PER_PLATFORM`. -/
def processCands (env : PipelineEnv) (platform : String) :
    RunState → List Candidate → RunState
  | st, [] => st
  | st, cand :: rest =>
    if MAX_PER_PLATFORM ≤ st.per_platform platform then st
    else processCands env platform (processOne env platform st cand) rest

/-- Every state the candidate loop passes through after a candidate is
handled (the loop's state right after each iteration; an empty list for
an immediate break). -/
def candTrace (env : PipelineEnv) (platform : String) :
    RunState → List Candidate → List RunState
  | _, [] => []
  | st, cand :: rest =>
    if MAX_PER_PLATFORM ≤ st.per_platform platform then []
    else
      let st' := processOne env platform st cand
      st' :: candTrace env platform st' rest

/-- One platform iteration (lines 334-346): skipped outright when the
platform counter is already at the cap, otherwise the candidate loop
over that platform's scraper output. -/
def runPlatform (env : PipelineEnv) (q : String) (st : RunState) (platform : String) :
    RunState :=
  if MAX_PER_PLATFORM ≤ st.per_platform platform then st
  else processCands env platform st (env.harvest platform q)

/-- The state after the whole platform loop. -/
def finalState (env : PipelineEnv) (q : String) : RunState :=
  PLATFORMS.foldl (runPlatform env q) initState

/-- Every state the platform loop passes through. -/
def platTrace (env : PipelineEnv) (q : String) :
    RunState → List String → List RunState
  | _, [] => []
  | st, p :: ps =>
    (if MAX_PER_PLATFORM ≤ st.per_platform p then []
     else candTrace env p st (env.harvest p q)) ++
      platTrace env q (runPlatform env q st p) ps

/-- Every state of one `run_pipeline` run: the initial state and the state
after each handled candidate, across all platforms in order. -/
def pipelineTrace (env : PipelineEnv) (q : String) : List RunState :=
  initState :: platTrace env q initState PLATFORMS

/-- The sort key: `r["analysis"].get("score", 0)` (always present). -/
def leadScore (l : Lead) : ℤ := l.analysis.score

/-- Stable insertion for the descending sort: a later-harvested lead goes
after every already-placed lead of strictly greater score and also after
none of smaller-or-equal score it should precede — i.e. it is inserted
before the first lead whose score is `≤` its own.  As a function this is
exactly Python's stable `sorted(..., key=lambda x: x[0], reverse=True)`,
which any stable descending sort computes. -/
def insertLead (x : Lead) : List Lead → List Lead
  | [] => [x]
  | y :: ys => if leadScore x < leadScore y then y :: insertLead x ys else x :: y :: ys

/-- The global sort of `run_pipeline` (lines 384-390). -/
def sortLeads : List Lead → List Lead
  | [] => []
  | x :: xs => insertLead x (sortLeads xs)

/-- The leads of a given score, in list order (used to state stability). -/
def scoreFilter (s : ℤ) (ls : List Lead) : List Lead :=
  ls.filter (fun z => leadScore z == s)

/-- What `run_pipeline` produces: the sorted lead list, plus whether the
report files were written (`write_reports` runs unconditionally right
before the return, line 393). -/
structure PipelineOutcome where
  leads : List Lead
  reportWritten : Bool
deriving DecidableEq

/-- `run_pipeline(query)` (lines 319-394).  Note: the function performs no
validation of `query`; an empty query flows into the scrapers like any
other. -/
def run_pipeline (env : PipelineEnv) (query : String) : PipelineOutcome :=
  { leads := sortLeads (finalState env query).results, reportWritten := true }

/-- Result of the front end's `/api/scrape` route (`app.py` lines 27-42):
an HTTP error with status, or the lead list as JSON. -/
inductive ApiResult where
  | ok (leads : List Lead)
  | clientError (msg : String) (code : Nat)
deriving DecidableEq

/-- `api_scrape` (`app.py` lines 27-42): strip the query, answer
`("Query vuota", 400)` without invoking the pipeline when it is empty,
otherwise run the pipeline and return its leads.  The second component
records whether `run_pipeline` was entered (hence whether any harvesting
happened and any report file was written). -/
def api_scrape (env : PipelineEnv) (rawQuery : String) : ApiResult × Bool :=
  let query := pyStrip rawQuery
  if query = "" then (ApiResult.clientError "Query vuota" 400, false)
  else ((ApiResult.ok (run_pipeline env query).leads), true)

/- ------------------------ derived counts and fixtures ------------------------ -/

/-- How many leads of a list were collected for platform `p`. -/
def platCount (leads : List Lead) (p : String) : Nat :=
  (leads.filter (fun l => l.platform == p)).length

/-- How many leads of a list were collected for registered domain `d`. -/
def domCount (leads : List Lead) (d : String) : Nat :=
  (leads.filter (fun l => l.domain == d)).length

/-- The run-state invariant: each counter equals the number of collected
leads for its key, and both counters respect their caps. -/
def CountsOk (st : RunState) : Prop :=
  (∀ p, st.per_platform p = platCount st.results p) ∧
    (∀ d, st.per_domain_count d = domCount st.results d) ∧
    (∀ p, st.per_platform p ≤ MAX_PER_PLATFORM) ∧
    (∀ d, st.per_domain_count d ≤ MAX_PER_DOMAIN)

/-- The rational `0.3`, given by its reduced fraction so that comparisons
reduce by evaluation. -/
def ratCQ03 : ℚ := ⟨3, 10, by decide, by decide⟩

/-- A signal bundle with no contact signals and copy quality `0.3` (one of
the three nonzero values `copy_quality_score` produces). -/
def sigCQ03 : Signals :=
  { emails := [], phones := [], contact_page := none, has_contact_form := false,
    has_schema := false, has_cta := false, copy_quality := ratCQ03 }

/-- A signal bundle with every signal present and copy quality `1.0`. -/
def sigFull : Signals :=
  { emails := ["info@example.com"], phones := ["021234567"],
    contact_page := some "https://example.com/contact", has_contact_form := true,
    has_schema := true, has_cta := true, copy_quality := 1 }

/-- A concrete candidate used by closed instances below. -/
def candA : Candidate :=
  { platform := "meta", title := "t", text := "t", landing := "https://example.com/a" }

/-- A concrete anchor used by closed instances below. -/
def anchorA : Anchor := { text := "t", href := "https://example.com/a" }

/-- A concrete pipeline environment: the meta scraper yields one candidate,
every analysis succeeds with the default record. -/
def envMeta1 : PipelineEnv :=
  { harvest := fun p _ => if p = "meta" then [candA] else [],
    analysisResult := fun u => some (defaultInfo u),
    domainOf := fun _ => "example.com" }

/-- A concrete pipeline environment whose every analysis raises. -/
def envNone : PipelineEnv :=
  { harvest := fun _ _ => [], analysisResult := fun _ => none, domainOf := fun _ => "" }

/- ------------------------ arithmetic lemmas ------------------------ -/

/-- On a nonnegative rational, Python truncation agrees with the floor. -/
theorem pyInt_eq_floor {q : ℚ} (h : 0 ≤ q) : pyInt q = ⌊q⌋ := by
  rw [Rat.floor_def, pyInt]
  exact Int.tdiv_eq_ediv (Rat.num_nonneg.mpr h) (Int.natCast_nonneg _)

/-- Python truncation of a nonnegative rational is nonnegative. -/
theorem pyInt_nonneg {q : ℚ} (h : 0 ≤ q) : 0 ≤ pyInt q :=
  Int.tdiv_nonneg (Rat.num_nonneg.mpr h) (Int.natCast_nonneg _)

/-- Python truncation of a rational in `[0, 12]` is at most `12`. -/
theorem pyInt_le_twelve {q : ℚ} (h0 : 0 ≤ q) (h1 : q ≤ 12) : pyInt q ≤ 12 := by
  rw [pyInt_eq_floor h0]
  calc ⌊q⌋ ≤ ⌊(12 : ℚ)⌋ := Int.floor_le_floor h1
    _ = 12 := by norm_num

/-- With `copy_quality ∈ [0, 1]` the copy-quality contribution of the raw
score lies in `[0, 12]`. -/
theorem copy_term_bounds {q : ℚ} (h0 : 0 ≤ q) (h1 : q ≤ 1) :
    0 ≤ pyInt (q * (WEIGHTS_good_copy : ℚ)) ∧ pyInt (q * (WEIGHTS_good_copy : ℚ)) ≤ 12 := by
  have hq0 : 0 ≤ q * (WEIGHTS_good_copy : ℚ) := by
    have : (0 : ℚ) ≤ (WEIGHTS_good_copy : ℚ) := by norm_num [WEIGHTS_good_copy]
    positivity
  have hq1 : q * (WEIGHTS_good_copy : ℚ) ≤ 12 := by
    have h12 : (WEIGHTS_good_copy : ℚ) = 12 := by norm_num [WEIGHTS_good_copy]
    rw [h12]
    nlinarith
  exact ⟨pyInt_nonneg hq0, pyInt_le_twelve hq0 hq1⟩

/- ------------------------ sorting lemmas ------------------------ -/

/-- Inserting a lead is a permutation of consing it. -/
theorem insertLead_perm (x : Lead) (l : List Lead) : (insertLead x l).Perm (x :: l) := by
  induction l with
  | nil => exact List.Perm.refl _
  | cons y ys ih =>
    by_cases h : leadScore x < leadScore y
    · simp only [insertLead, if_pos h]
      exact (ih.cons y).trans (List.Perm.swap x y ys)
    · simp only [insertLead, if_neg h]
      exact List.Perm.refl _

/-- The sort is a permutation of its input. -/
theorem sortLeads_perm (l : List Lead) : (sortLeads l).Perm l := by
  induction l with
  | nil => exact List.Perm.refl _
  | cons x xs ih => exact (insertLead_perm x (sortLeads xs)).trans (ih.cons x)

/-- Insertion preserves descending order of scores. -/
theorem insertLead_pairwise {x : Lead} {l : List Lead}
    (h : l.Pairwise (fun a b => leadScore b ≤ leadScore a)) :
    (insertLead x l).Pairwise (fun a b => leadScore b ≤ leadScore a) := by
  induction l with
  | nil => simp [insertLead]
  | cons y ys ih =>
    rcases List.pairwise_cons.mp h with ⟨hy, hys⟩
    by_cases hxy : leadScore x < leadScore y
    · simp only [insertLead, if_pos hxy]
      refine List.pairwise_cons.mpr ⟨?_, ih hys⟩
      intro z hz
      have hz' : z ∈ x :: ys := (insertLead_perm x ys).mem_iff.mp hz
      rcases List.mem_cons.mp hz' with rfl | hzys
      · exact le_of_lt hxy
      · exact hy z hzys
    · simp only [insertLead, if_neg hxy]
      push_neg at hxy
      refine List.pairwise_cons.mpr ⟨?_, h⟩
      intro z hz
      rcases List.mem_cons.mp hz with rfl | hzys
      · exact hxy
      · exact le_trans (hy z hzys) hxy

/-- The sorted list is descending in score. -/
theorem sortLeads_sorted (l : List Lead) :
    (sortLeads l).Pairwise (fun a b => leadScore b ≤ leadScore a) := by
  induction l with
  | nil => simp [sortLeads]
  | cons x xs ih => exact insertLead_pairwise ih

/-- How insertion acts on the sublist of a fixed score: the inserted lead
lands in front of the other leads of its own score. -/
theorem insertLead_scoreFilter (s : ℤ) (x : Lead) (l : List Lead) :
    scoreFilter s (insertLead x l) =
      if leadScore x = s then x :: scoreFilter s l else scoreFilter s l := by
  induction l with
  | nil =>
    by_cases hx : leadScore x = s <;>
      simp [insertLead, scoreFilter, List.filter_cons, hx]
  | cons y ys ih =>
    by_cases hxy : leadScore x < leadScore y
    · simp only [insertLead, if_pos hxy]
      by_cases hx : leadScore x = s
      · have hy : ¬(leadScore y = s) := by omega
        simp [scoreFilter, List.filter_cons, hx, hy] at ih ⊢
        exact ih
      · simp [scoreFilter, List.filter_cons, hx] at ih ⊢
        by_cases hy : leadScore y = s <;> simp [hy, ih]
    · simp only [insertLead, if_neg hxy]
      by_cases hx : leadScore x = s <;> simp [scoreFilter, List.filter_cons, hx]

/-- Stability: the sort leaves the leads of each fixed score in their
original relative order. -/
theorem sortLeads_scoreFilter (l : List Lead) (s : ℤ) :
    scoreFilter s (sortLeads l) = scoreFilter s l := by
  induction l with
  | nil => rfl
  | cons x xs ih =>
    rw [sortLeads, insertLead_scoreFilter]
    by_cases hx : leadScore x = s <;>
      simp [scoreFilter, List.filter_cons, hx, ih] <;>
      simpa [scoreFilter] using ih

/- ------------------------ claims ------------------------ -/

/-- The explicit `0.3` really is `3/10`. -/
theorem ratCQ03_eq : ratCQ03 = 3 / 10 := by
  rw [ratCQ03, Rat.mk'_eq_divInt, Rat.divInt_eq_div]
  norm_num

/-- Python's `round`, reformulated through the floor (the `q.num / q.den`
of its definition is the floor of `q`). -/
theorem pyRound_cases (q : ℚ) :
    pyRound q =
      if q - (⌊q⌋ : ℚ) < 1 / 2 then ⌊q⌋
      else if 1 / 2 < q - (⌊q⌋ : ℚ) then ⌊q⌋ + 1
      else if ⌊q⌋ % 2 = 0 then ⌊q⌋ else ⌊q⌋ + 1 := by
  unfold pyRound
  rw [← Rat.floor_def]

/-- The copy-quality product at `0.3`: `0.3 * 12 = 18/5`. -/
theorem cq03_prod : ratCQ03 * (WEIGHTS_good_copy : ℚ) = 18 / 5 := by
  rw [ratCQ03_eq]
  norm_num [WEIGHTS_good_copy]

/-- C1 counterexample: at copy quality `0.3` (producible: any page whose
readability score lands in `[40, 60)`) and no other signal, the code's
raw score is `int(0.3 * 12) = 3`, while the claimed `round(0.3 * 12)`
is `4` — the scoring step truncates, it does not round. -/
theorem c1_round_counterexample :
    rawScore sigCQ03 = 3 ∧ specRawScore sigCQ03 = 4 ∧
      rawScore sigCQ03 ≠ specRawScore sigCQ03 := by
  have hfl : ⌊(18 / 5 : ℚ)⌋ = 3 := by
    rw [Int.floor_eq_iff]
    norm_num
  have h1 : rawScore sigCQ03 = 3 := by
    simp only [rawScore, sigCQ03, pyTruthy, List.isEmpty_nil, if_true, if_false,
      Bool.false_eq_true]
    rw [cq03_prod, pyInt_eq_floor (by norm_num), hfl]
    norm_num
  have h2 : specRawScore sigCQ03 = 4 := by
    simp only [specRawScore, sigCQ03, pyTruthy, List.isEmpty_nil, if_true, if_false,
      Bool.false_eq_true]
    rw [cq03_prod, pyRound_cases, hfl]
    norm_num
  exact ⟨h1, h2, by omega⟩

/-- C1 (amended): for every signal bundle whose copy quality lies in
`[0, 1]`, the raw score — the sum of the fixed weights (email 30,
phone 20, contact page 10, contact form 8, schema 8, CTA 12) plus
`int(copy_quality * 12)`, i.e. the product truncated, not rounded —
lies in `[0, 100]`; the final score is the raw sum clamped to `[0, 100]`,
which therefore equals the raw sum; and the maximum `100` is attained. -/
theorem c1_amended (s : Signals) (h0 : 0 ≤ s.copy_quality) (h1 : s.copy_quality ≤ 1) :
    (0 ≤ rawScore s ∧ rawScore s ≤ 100) ∧
    normalize_score (rawScore s) = rawScore s ∧
    ∃ s2 : Signals, 0 ≤ s2.copy_quality ∧ s2.copy_quality ≤ 1 ∧
      rawScore s2 = 100 ∧ normalize_score (rawScore s2) = 100 := by
  obtain ⟨hc0, hc1⟩ := copy_term_bounds h0 h1
  have hb : 0 ≤ rawScore s ∧ rawScore s ≤ 100 := by
    simp only [rawScore, WEIGHTS_has_email, WEIGHTS_has_phone, WEIGHTS_has_contact_page,
      WEIGHTS_has_contact_form, WEIGHTS_has_schema, WEIGHTS_has_cta]
    split_ifs <;> omega
  refine ⟨hb, by unfold normalize_score; omega, ?_⟩
  have hsf : rawScore sigFull = 100 := by
    have hp : pyInt ((1 : ℚ) * (WEIGHTS_good_copy : ℚ)) = 12 := by
      have hq : (1 : ℚ) * (WEIGHTS_good_copy : ℚ) = 12 := by norm_num [WEIGHTS_good_copy]
      rw [hq, pyInt_eq_floor (by norm_num)]
      norm_num
    show (30 : ℤ) + 20 + 10 + 8 + 8 + pyInt ((1 : ℚ) * (WEIGHTS_good_copy : ℚ)) + 12 = 100
    rw [hp]
    norm_num
  exact ⟨sigFull, by norm_num [sigFull], by norm_num [sigFull], hsf,
    by rw [hsf]; rfl⟩

/-- Closed instance of `c1_amended` at the concrete bundle `sigCQ03`. -/
theorem c1_amended_witness :
    (0 ≤ rawScore sigCQ03 ∧ rawScore sigCQ03 ≤ 100) ∧
    normalize_score (rawScore sigCQ03) = rawScore sigCQ03 ∧
    ∃ s2 : Signals, 0 ≤ s2.copy_quality ∧ s2.copy_quality ≤ 1 ∧
      rawScore s2 = 100 ∧ normalize_score (rawScore s2) = 100 :=
  c1_amended sigCQ03 (by decide) (by decide)

/-- C3: the list `run_pipeline` returns is a permutation of the
harvested-order lead list, sorted by `analysis.score` descending, and
within each fixed score the leads appear exactly in their harvesting
order (the sort is stable). -/
theorem c3_sorted_stable (env : PipelineEnv) (q : String) :
    ((run_pipeline env q).leads).Perm ((finalState env q).results) ∧
    ((run_pipeline env q).leads).Pairwise (fun a b => leadScore b ≤ leadScore a) ∧
    ∀ s : ℤ, scoreFilter s ((run_pipeline env q).leads) =
      scoreFilter s ((finalState env q).results) :=
  ⟨sortLeads_perm _, sortLeads_sorted _, fun s => sortLeads_scoreFilter _ s⟩

/-- Closed instance of `c3_sorted_stable` at a concrete environment. -/
theorem c3_sorted_stable_witness :
    ((run_pipeline envMeta1 "x").leads).Perm ((finalState envMeta1 "x").results) :=
  (c3_sorted_stable envMeta1 "x").1

/-- C5 counterexample: `run_pipeline` itself performs no query validation —
run on the empty query against an environment whose meta scraper
returns one candidate, it harvests, analyzes, collects a lead and
writes the report files, instead of failing fast. -/
theorem c5_counterexample :
    (run_pipeline envMeta1 "").leads.length = 1 ∧
      (run_pipeline envMeta1 "").reportWritten = true :=
  ⟨by decide, rfl⟩

/-- C5 (amended): empty-query rejection lives in the callers, not in
`run_pipeline`: for every query that trims to the empty string, the
front end's `api_scrape` answers the explicit client error
`("Query vuota", 400)` without entering `run_pipeline`, so no
harvesting starts and no report file is written (the `__main__` entry
performs the same trimmed-emptiness check before calling the pipeline). -/
theorem c5_amended (env : PipelineEnv) (raw : String) (h : pyStrip raw = "") :
    api_scrape env raw = (ApiResult.clientError "Query vuota" 400, false) := by
  simp [api_scrape, h]

/-- Closed instance of `c5_amended` at a whitespace-only query. -/
theorem c5_amended_witness :
    api_scrape envMeta1 "  " = (ApiResult.clientError "Query vuota" 400, false) :=
  c5_amended envMeta1 "  " (by decide)

/-- C6 counterexample: `"http://[::1"` is malformed (CPython's `urlparse`
raises `Invalid IPv6 URL`, modelled by `urlNetloc?` returning `none`),
yet `is_blocked_social` returns `false` — the `except` handler admits
malformed URLs instead of blocking them. -/
theorem c6_counterexample :
    urlNetloc? "http://[::1" = none ∧ is_blocked_social "http://[::1" = false :=
  ⟨by decide, by decide⟩

/-- C6 (amended): for every input on which URL parsing fails,
`is_blocked_social` returns `false` — malformed URLs are treated as not
blocked (fail open), the opposite of the claimed fail-safe behavior. -/
theorem c6_amended (url : String) (h : urlNetloc? url = none) :
    is_blocked_social url = false := by
  unfold is_blocked_social
  rw [h]

/-- Closed instance of `c6_amended` at the malformed URL `"http://[::1"`. -/
theorem c6_amended_witness : is_blocked_social "http://[::1" = false :=
  c6_amended "http://[::1" (by decide)

/-- C7: `extract_emails` returns exactly the distinct matches of the
permissive email pattern — a string is in its output iff it is a match
the scan of `EMAIL_RE.findall` produces (so every distinct match is
returned, not just the first), and the output has no duplicates. -/
theorem c7_extract_emails_all_distinct (t : String) :
    (∀ m, m ∈ extract_emails t ↔ m ∈ emailScan t.toList) ∧ (extract_emails t).Nodup :=
  ⟨fun _ => List.mem_dedup, List.nodup_dedup _⟩

/-- C10: a candidate whose analysis raises changes nothing — the candidate
step returns the state unchanged, so neither counter moves and no lead
is appended, and no platform or domain quota is consumed. -/
theorem c10_analysis_failure_no_state_change (env : PipelineEnv) (platform : String)
    (st : RunState) (cand : Candidate)
    (hfail : env.analysisResult cand.landing = none) :
    processOne env platform st cand = st := by
  simp [processOne, hfail]

/-- Closed instance of `c10_analysis_failure_no_state_change` in the
always-raising environment. -/
theorem c10_witness : processOne envNone "meta" initState candA = initState :=
  c10_analysis_failure_no_state_change envNone "meta" initState candA rfl

/-- C4: a landing whose rendered fetch times out and whose HTTP fallback
also raises yields the default analysis record — the input URL, empty
emails and phones, no contact page, form/schema/CTA all false, copy
quality `0.0` and score `0` — rather than raising or omitting the
record; and a candidate that passed admission whose analysis call
returns a record still contributes exactly one appended `Lead`. -/
theorem c4_fetch_failure_default (soupOf : String → SoupView) (url : String)
    (env : PipelineEnv) (platform : String) (st : RunState) (cand : Candidate) (a : Analysis)
    (hnf : cand.landing ≠ "")
    (hnb : is_blocked_social cand.landing = false)
    (hdq : st.per_domain_count (env.domainOf cand.landing) < MAX_PER_DOMAIN)
    (hres : env.analysisResult cand.landing = some a) :
    analyze_landing soupOf (FetchOutcome.timeoutFallback none) url =
      { url := url, emails := [], phones := [], contact_page := none,
        has_contact_form := false, has_schema := false, has_cta := false,
        copy_quality := 0, title := "", score := 0 } ∧
    (processOne env platform st cand).results =
      st.results ++ [mkLead platform cand (env.domainOf cand.landing) a] := by
  refine ⟨rfl, ?_⟩
  simp [processOne, hnf, hnb, hres, Nat.not_le.mpr hdq]

/-- Closed instance of `c4_fetch_failure_default` at a concrete fetch
failure and a concrete admitted candidate. -/
theorem c4_witness :
    analyze_landing (fun _ => ⟨"", "", none, false, false, false, 0⟩)
        (FetchOutcome.timeoutFallback none) "https://example.com/a" =
      { url := "https://example.com/a", emails := [], phones := [], contact_page := none,
        has_contact_form := false, has_schema := false, has_cta := false,
        copy_quality := 0, title := "", score := 0 } ∧
    (processOne envMeta1 "meta" initState candA).results =
      initState.results ++
        [mkLead "meta" candA (envMeta1.domainOf candA.landing) (defaultInfo candA.landing)] :=
  c4_fetch_failure_default (fun _ => ⟨"", "", none, false, false, false, 0⟩)
    "https://example.com/a" envMeta1 "meta" initState candA (defaultInfo candA.landing)
    (by decide) (by decide) (by decide) rfl

/-- C8 counterexample: on the input `"123456789012"` the extractor returns
the raw twelve-digit run itself — not a validated ten-digit national
number and not formatted with any international prefix (the spec-side
shape check `specPhoneValid` rejects it). -/
theorem c8_counterexample :
    extract_phones "123456789012" = ["123456789012"] ∧
      specPhoneValid "123456789012" = false :=
  ⟨by decide, by decide⟩

/-- C8 (amended): `extract_phones` performs no national-shape validation
and no international-prefix formatting; it returns the distinct
whitespace-stripped matches of the permissive `PHONE_RE` pattern that
contain at least six digits — the output has no duplicates (at most one
entry per distinct stripped value), every element is the stripped form
of some raw match with at least six digits, and the output is empty
when no match qualifies. -/
theorem c8_amended (t : String) :
    (extract_phones t).Nodup ∧
    (∀ p ∈ extract_phones t,
      ∃ m, m ∈ phoneScan t.toList ∧ 6 ≤ digitCount m ∧ p = pyStrip m) ∧
    ((∀ m ∈ phoneScan t.toList, digitCount m < 6) → extract_phones t = []) := by
  refine ⟨List.nodup_dedup _, ?_, ?_⟩
  · intro p hp
    have hp' := List.mem_dedup.mp hp
    rcases List.mem_map.mp hp' with ⟨m, hm, rfl⟩
    rcases List.mem_filter.mp hm with ⟨hscan, hdig⟩
    exact ⟨m, hscan, by simpa using hdig, rfl⟩
  · intro hall
    have hnil : (phoneScan t.toList).filter (fun p => 6 ≤ digitCount p) = [] := by
      rw [List.filter_eq_nil_iff]
      intro a ha
      simpa using Nat.not_le.mpr (hall a ha)
    unfold extract_phones
    rw [hnil]
    rfl

/-- Closed instance of `c8_amended`: the element returned on
`"123456789012"` is the stripped form of a raw `PHONE_RE` match with at
least six digits. -/
theorem c8_amended_witness :
    ∃ m, m ∈ phoneScan "123456789012".toList ∧ 6 ≤ digitCount m ∧
      "123456789012" = pyStrip m :=
  (c8_amended "123456789012").2.1 "123456789012" (by decide)

/- ------------------------ harvester lemmas ------------------------ -/

/-- Once fewer than `m` candidates are out, the meta dedup loop emits at
most `m - cnt` more. -/
theorem metaLoop_length (m : Nat) (cands : List (String × String)) :
    ∀ seen cnt, cnt < m → (metaLoop m seen cnt cands).length + cnt ≤ m := by
  induction cands with
  | nil =>
    intro seen cnt h
    simp only [metaLoop, List.length_nil]
    omega
  | cons hd rest ih =>
    intro seen cnt h
    obtain ⟨txt, landing⟩ := hd
    simp only [metaLoop]
    split
    · exact ih seen cnt h
    · split
      · simp only [List.length_singleton]
        omega
      · next h2 =>
        have := ih (stripQuery landing :: seen) (cnt + 1) (by omega)
        simp only [List.length_cons]
        omega

/-- Every candidate the meta dedup loop emits has a dedup key outside
`seen`, and no two emitted candidates share a dedup key. -/
theorem metaLoop_dedup (m : Nat) (cands : List (String × String)) :
    ∀ seen cnt,
      (∀ c ∈ metaLoop m seen cnt cands, stripQuery c.landing ∉ seen) ∧
      (metaLoop m seen cnt cands).Pairwise
        (fun c c' => stripQuery c.landing ≠ stripQuery c'.landing) := by
  induction cands with
  | nil => intro seen cnt; simp [metaLoop]
  | cons hd rest ih =>
    intro seen cnt
    obtain ⟨txt, landing⟩ := hd
    simp only [metaLoop]
    split
    · exact ih seen cnt
    · next hns =>
      have hnotin : stripQuery landing ∉ seen := by
        simpa [List.elem_iff] using hns
      split
      · refine ⟨?_, List.pairwise_singleton _ _⟩
        intro c hc
        rcases List.mem_singleton.mp hc with rfl
        exact hnotin
      · obtain ⟨ihmem, ihpw⟩ := ih (stripQuery landing :: seen) (cnt + 1)
        refine ⟨?_, ?_⟩
        · intro c hc
          rcases List.mem_cons.mp hc with rfl | hc
          · exact hnotin
          · intro hin
            exact ihmem c hc (List.mem_cons_of_mem _ hin)
        · refine List.pairwise_cons.mpr ⟨?_, ihpw⟩
          intro c' hc' heq
          exact ihmem c' hc' (heq ▸ List.mem_cons_self _ _)

/-- Every candidate the reddit loop emits has a dedup key outside `seen`,
and no two emitted candidates share a dedup key. -/
theorem redditLoop_dedup (m : Nat) (anchors : List Anchor) :
    ∀ seen cnt,
      (∀ c ∈ redditLoop m seen cnt anchors, stripQuery c.landing ∉ seen) ∧
      (redditLoop m seen cnt anchors).Pairwise
        (fun c c' => stripQuery c.landing ≠ stripQuery c'.landing) := by
  induction anchors with
  | nil => intro seen cnt; simp [redditLoop]
  | cons a rest ih =>
    intro seen cnt
    simp only [redditLoop]
    split
    · split
      · exact ih seen cnt
      · split
        · exact ih seen cnt
        · next hns =>
          have hnotin : stripQuery a.href ∉ seen := by
            simpa [List.elem_iff] using hns
          split
          · refine ⟨?_, List.pairwise_singleton _ _⟩
            intro c hc
            rcases List.mem_singleton.mp hc with rfl
            exact hnotin
          · obtain ⟨ihmem, ihpw⟩ := ih (stripQuery a.href :: seen) (cnt + 1)
            refine ⟨?_, ?_⟩
            · intro c hc
              rcases List.mem_cons.mp hc with rfl | hc
              · exact hnotin
              · intro hin
                exact ihmem c hc (List.mem_cons_of_mem _ hin)
            · refine List.pairwise_cons.mpr ⟨?_, ihpw⟩
              intro c' hc' heq
              exact ihmem c' hc' (heq ▸ List.mem_cons_self _ _)
    · exact ih seen cnt

/-- Every candidate the linkedin loop emits has a dedup key outside `seen`,
and no two emitted candidates share a dedup key. -/
theorem linkedinLoop_dedup (m : Nat) (anchors : List Anchor) :
    ∀ seen cnt,
      (∀ c ∈ linkedinLoop m seen cnt anchors, stripQuery c.landing ∉ seen) ∧
      (linkedinLoop m seen cnt anchors).Pairwise
        (fun c c' => stripQuery c.landing ≠ stripQuery c'.landing) := by
  induction anchors with
  | nil => intro seen cnt; simp [linkedinLoop]
  | cons a rest ih =>
    intro seen cnt
    simp only [linkedinLoop]
    split
    · split
      · exact ih seen cnt
      · split
        · exact ih seen cnt
        · next hns =>
          have hnotin : stripQuery a.href ∉ seen := by
            simpa [List.elem_iff] using hns
          split
          · refine ⟨?_, List.pairwise_singleton _ _⟩
            intro c hc
            rcases List.mem_singleton.mp hc with rfl
            exact hnotin
          · obtain ⟨ihmem, ihpw⟩ := ih (stripQuery a.href :: seen) (cnt + 1)
            refine ⟨?_, ?_⟩
            · intro c hc
              rcases List.mem_cons.mp hc with rfl | hc
              · exact hnotin
              · intro hin
                exact ihmem c hc (List.mem_cons_of_mem _ hin)
            · refine List.pairwise_cons.mpr ⟨?_, ihpw⟩
              intro c' hc' heq
              exact ihmem c' hc' (heq ▸ List.mem_cons_self _ _)
    · exact ih seen cnt

/-- C9 counterexample: called with `max_items = 0` on a document holding a
single admissible anchor, `scrape_meta_ads` still returns one candidate
— the bound is checked only after an append and the function never
truncates, so its output length exceeds `max_items`. -/
theorem c9_counterexample :
    (scrape_meta_ads [anchorA] 0).length = 1 ∧
      ¬((scrape_meta_ads [anchorA] 0).length ≤ 0) :=
  ⟨by decide, by decide⟩

/-- C9 (amended): for every `max_items ≥ 1` and every input document, each
of the three harvesters — `scrape_meta_ads`, `scrape_reddit`,
`scrape_linkedin` — returns at most `max_items` candidates and no two
of one harvester's candidates share a landing URL once the query string
is stripped; on an empty rendered document — all a failed search fetch
leaves behind — every harvester returns no candidates rather than
raising.  `scrape_reddit` and `scrape_linkedin` end with
`out[:max_items]` and so are bounded even at `max_items = 0`, while
`scrape_meta_ads` can exceed the bound by one in that degenerate case
only (it checks the bound after appending and never truncates). -/
theorem c9_amended (anchors : List Anchor) (m : Nat) (hm : 1 ≤ m) :
    (scrape_meta_ads anchors m).length ≤ m ∧
    (scrape_meta_ads anchors m).Pairwise
      (fun c c' => stripQuery c.landing ≠ stripQuery c'.landing) ∧
    (scrape_reddit anchors m).length ≤ m ∧
    (scrape_reddit anchors m).Pairwise
      (fun c c' => stripQuery c.landing ≠ stripQuery c'.landing) ∧
    (scrape_linkedin anchors m).length ≤ m ∧
    (scrape_linkedin anchors m).Pairwise
      (fun c c' => stripQuery c.landing ≠ stripQuery c'.landing) ∧
    (∀ k, (scrape_reddit anchors k).length ≤ k) ∧
    (∀ k, (scrape_linkedin anchors k).length ≤ k) ∧
    scrape_meta_ads [] m = [] ∧ scrape_reddit [] m = [] ∧
      scrape_linkedin [] m = [] := by
  refine ⟨?_, ?_, ?_, ?_, ?_, ?_, ?_, ?_, rfl,
    by simp [scrape_reddit, redditLoop], by simp [scrape_linkedin, linkedinLoop]⟩
  · have := metaLoop_length m (metaCandidates anchors) [] 0 (by omega)
    simpa [scrape_meta_ads] using this
  · exact (metaLoop_dedup m (metaCandidates anchors) [] 0).2
  · exact List.length_take_le m (redditLoop m [] 0 anchors)
  · exact List.Pairwise.sublist (List.take_sublist _ _) ((redditLoop_dedup m anchors [] 0).2)
  · exact List.length_take_le m (linkedinLoop m [] 0 anchors)
  · exact List.Pairwise.sublist (List.take_sublist _ _) ((linkedinLoop_dedup m anchors [] 0).2)
  · exact fun k => List.length_take_le k (redditLoop k [] 0 anchors)
  · exact fun k => List.length_take_le k (linkedinLoop k [] 0 anchors)

/-- Closed instance of `c9_amended` at one anchor and `max_items = 1`. -/
theorem c9_amended_witness :
    (scrape_meta_ads [anchorA] 1).length ≤ 1 ∧
    (scrape_meta_ads [anchorA] 1).Pairwise
      (fun c c' => stripQuery c.landing ≠ stripQuery c'.landing) ∧
    (scrape_reddit [anchorA] 1).length ≤ 1 ∧
    (scrape_reddit [anchorA] 1).Pairwise
      (fun c c' => stripQuery c.landing ≠ stripQuery c'.landing) ∧
    (scrape_linkedin [anchorA] 1).length ≤ 1 ∧
    (scrape_linkedin [anchorA] 1).Pairwise
      (fun c c' => stripQuery c.landing ≠ stripQuery c'.landing) ∧
    (∀ k, (scrape_reddit [anchorA] k).length ≤ k) ∧
    (∀ k, (scrape_linkedin [anchorA] k).length ≤ k) ∧
    scrape_meta_ads [] 1 = [] ∧ scrape_reddit [] 1 = [] ∧
      scrape_linkedin [] 1 = [] :=
  c9_amended [anchorA] 1 (by decide)

/- ------------------------ pipeline invariant lemmas ------------------------ -/

/-- Appending one lead bumps the platform count of its platform by one and
leaves every other platform count unchanged. -/
theorem platCount_append (leads : List Lead) (x : Lead) (p : String) :
    platCount (leads ++ [x]) p =
      platCount leads p + (if x.platform = p then 1 else 0) := by
  by_cases h : x.platform = p <;>
    simp [platCount, List.filter_append, List.filter_cons, h]

/-- Appending one lead bumps the domain count of its domain by one and
leaves every other domain count unchanged. -/
theorem domCount_append (leads : List Lead) (x : Lead) (d : String) :
    domCount (leads ++ [x]) d =
      domCount leads d + (if x.domain = d then 1 else 0) := by
  by_cases h : x.domain = d <;>
    simp [domCount, List.filter_append, List.filter_cons, h]

/-- The candidate step preserves the counting invariant whenever the
platform counter still has room (which the loop's break check
guarantees before every candidate). -/
theorem processOne_countsOk {env : PipelineEnv} {platform : String} {st : RunState}
    {cand : Candidate} (h : CountsOk st)
    (hlt : st.per_platform platform < MAX_PER_PLATFORM) :
    CountsOk (processOne env platform st cand) := by
  obtain ⟨h1, h2, h3, h4⟩ := h
  simp only [processOne]
  split
  · exact ⟨h1, h2, h3, h4⟩
  split
  · exact ⟨h1, h2, h3, h4⟩
  split
  · exact ⟨h1, h2, h3, h4⟩
  next hdq =>
    split
    · exact ⟨h1, h2, h3, h4⟩
    next a ha =>
      have hdq' : st.per_domain_count (env.domainOf cand.landing) < MAX_PER_DOMAIN := by
        omega
      refine ⟨fun p => ?_, fun d => ?_, fun p => ?_, fun d => ?_⟩
      · show (if p = platform then st.per_platform p + 1 else st.per_platform p) =
          platCount (st.results ++ [mkLead platform cand (env.domainOf cand.landing) a]) p
        rw [platCount_append]
        by_cases hp : p = platform
        · simp [mkLead, hp, h1 platform]
        · simp [mkLead, hp, Ne.symm hp, h1 p]
      · show (if d = env.domainOf cand.landing then st.per_domain_count d + 1
            else st.per_domain_count d) =
          domCount (st.results ++ [mkLead platform cand (env.domainOf cand.landing) a]) d
        rw [domCount_append]
        by_cases hd : d = env.domainOf cand.landing
        · simp [mkLead, hd, h2 (env.domainOf cand.landing)]
        · simp [mkLead, hd, Ne.symm hd, h2 d]
      · show (if p = platform then st.per_platform p + 1 else st.per_platform p) ≤
          MAX_PER_PLATFORM
        by_cases hp : p = platform
        · rw [if_pos hp, hp]
          omega
        · rw [if_neg hp]
          exact h3 p
      · show (if d = env.domainOf cand.landing then st.per_domain_count d + 1
            else st.per_domain_count d) ≤ MAX_PER_DOMAIN
        by_cases hd : d = env.domainOf cand.landing
        · rw [if_pos hd, hd]
          omega
        · rw [if_neg hd]
          exact h4 d

/-- The candidate loop preserves the counting invariant. -/
theorem processCands_countsOk (env : PipelineEnv) (platform : String)
    (cands : List Candidate) :
    ∀ st, CountsOk st → CountsOk (processCands env platform st cands) := by
  induction cands with
  | nil => exact fun st h => h
  | cons cand rest ih =>
    intro st h
    simp only [processCands]
    split
    · exact h
    · next hbr => exact ih _ (processOne_countsOk h (by omega))

/-- Every state along the candidate loop satisfies the counting invariant. -/
theorem candTrace_countsOk (env : PipelineEnv) (platform : String)
    (cands : List Candidate) :
    ∀ st, CountsOk st → ∀ st' ∈ candTrace env platform st cands, CountsOk st' := by
  induction cands with
  | nil => intro st _ st' hst'; simp [candTrace] at hst'
  | cons cand rest ih =>
    intro st h st' hst'
    simp only [candTrace] at hst'
    split at hst'
    · simp at hst'
    · next hbr =>
      rcases List.mem_cons.mp hst' with rfl | hmem
      · exact processOne_countsOk h (by omega)
      · exact ih _ (processOne_countsOk h (by omega)) st' hmem

/-- One platform iteration preserves the counting invariant. -/
theorem runPlatform_countsOk {env : PipelineEnv} {q : String} {st : RunState}
    {p : String} (h : CountsOk st) : CountsOk (runPlatform env q st p) := by
  unfold runPlatform
  split
  · exact h
  · exact processCands_countsOk env p _ st h

/-- The whole platform loop preserves the counting invariant. -/
theorem foldl_runPlatform_countsOk (env : PipelineEnv) (q : String)
    (ps : List String) :
    ∀ st, CountsOk st → CountsOk (ps.foldl (runPlatform env q) st) := by
  induction ps with
  | nil => exact fun st h => h
  | cons p ps ih =>
    intro st h
    exact ih _ (runPlatform_countsOk h)

/-- Every state along the platform loop satisfies the counting invariant. -/
theorem platTrace_countsOk (env : PipelineEnv) (q : String) (ps : List String) :
    ∀ st, CountsOk st → ∀ st' ∈ platTrace env q st ps, CountsOk st' := by
  induction ps with
  | nil => intro st _ st' hst'; simp [platTrace] at hst'
  | cons p ps ih =>
    intro st h st' hst'
    simp only [platTrace, List.mem_append] at hst'
    rcases hst' with hst' | hst'
    · split at hst'
      · simp at hst'
      · exact candTrace_countsOk env p _ st h st' hst'
    · exact ih _ (runPlatform_countsOk h) st' hst'

/-- The initial run state satisfies the counting invariant. -/
theorem initState_countsOk : CountsOk initState := by
  refine ⟨fun p => rfl, fun d => rfl, fun p => ?_, fun d => ?_⟩ <;>
    simp [initState, MAX_PER_PLATFORM, MAX_PER_DOMAIN]

/-- Permuting the lead list changes no platform count. -/
theorem platCount_sortLeads (l : List Lead) (p : String) :
    platCount (sortLeads l) p = platCount l p :=
  ((sortLeads_perm l).filter _).length_eq

/-- Permuting the lead list changes no domain count. -/
theorem domCount_sortLeads (l : List Lead) (d : String) :
    domCount (sortLeads l) d = domCount l d :=
  ((sortLeads_perm l).filter _).length_eq

/-- C2: at every point of a `run_pipeline` run — the initial state and the
state after each handled candidate — and in the final returned list,
every platform has at most `MAX_PER_PLATFORM` collected leads and every
domain at most `MAX_PER_DOMAIN`. -/
theorem c2_quota_bounds (env : PipelineEnv) (q : String) :
    (∀ st ∈ pipelineTrace env q,
      (∀ p, platCount st.results p ≤ MAX_PER_PLATFORM) ∧
      (∀ d, domCount st.results d ≤ MAX_PER_DOMAIN)) ∧
    (∀ p, platCount (run_pipeline env q).leads p ≤ MAX_PER_PLATFORM) ∧
    (∀ d, domCount (run_pipeline env q).leads d ≤ MAX_PER_DOMAIN) := by
  have hfin : CountsOk (finalState env q) :=
    foldl_runPlatform_countsOk env q PLATFORMS initState initState_countsOk
  refine ⟨?_, ?_, ?_⟩
  · intro st hst
    have hok : CountsOk st := by
      rcases List.mem_cons.mp hst with rfl | hst'
      · exact initState_countsOk
      · exact platTrace_countsOk env q PLATFORMS initState initState_countsOk st hst'
    obtain ⟨h1, h2, h3, h4⟩ := hok
    exact ⟨fun p => by rw [← h1 p]; exact h3 p, fun d => by rw [← h2 d]; exact h4 d⟩
  · intro p
    show platCount (sortLeads (finalState env q).results) p ≤ MAX_PER_PLATFORM
    rw [platCount_sortLeads, ← hfin.1 p]
    exact hfin.2.2.1 p
  · intro d
    show domCount (sortLeads (finalState env q).results) d ≤ MAX_PER_DOMAIN
    rw [domCount_sortLeads, ← hfin.2.1 d]
    exact hfin.2.2.2 d

/-- Closed instance of `c2_quota_bounds`: the bound at the head of the
trace of a concrete run. -/
theorem c2_quota_bounds_witness :
    platCount (run_pipeline envMeta1 "x").leads "meta" ≤ MAX_PER_PLATFORM :=
  (c2_quota_bounds envMeta1 "x").2.1 "meta"
